import Mathlib

/-!
# Verification of the Aurora voice scheduling agent

Shallow embedding of the repository's call-dialogue logic:

* the Twilio voice webhook handler (`src/unnamed/part_000`, `POST`),
* the appointment-creation API route
  (`src/agentic-call-agent/src/app/api/appointments/route.ts`, `POST`),
* the browser simulator step logic
  (`src/agentic-call-agent/src/components/CallAgent.tsx`,
  `handleSubmitResponse`),

together with models of the three `@/lib` modules (`dateParser`,
`callStateStore`, `appointmentsStore`) whose sources are not part of the
repository snapshot; those are modelled from the specification and carry a
`Modelled from the spec:` doc comment.

Instants are minutes since 1970-01-01T00:00 in a single fixed local offset
(the spec declares timezone handling a non-goal).
-/

/-! ## Calendar arithmetic (support for the date parser model) -/

def isLeap (y : Nat) : Bool := (y % 4 == 0 && y % 100 != 0) || y % 400 == 0

def yearLen (y : Nat) : Nat := if isLeap y then 366 else 365

theorem yearLen_pos (y : Nat) : 0 < yearLen y := by
  unfold yearLen; split <;> decide

def monthLen (y m : Nat) : Nat :=
  if m = 2 then (if isLeap y then 29 else 28)
  else if m = 4 ∨ m = 6 ∨ m = 9 ∨ m = 11 then 30
  else 31

theorem monthLen_pos (y m : Nat) : 0 < monthLen y m := by
  unfold monthLen; split
  · split <;> decide
  · split <;> decide

/-- Days from 1970-01-01 to the first day of year `y` (0 for years up to 1970). -/
def daysBeforeYear (y : Nat) : Nat :=
  if _h : y ≤ 1970 then 0 else daysBeforeYear (y - 1) + yearLen (y - 1)
termination_by y
decreasing_by omega

/-- Days from the first day of year `y` to the first day of month `m` of year `y`. -/
def daysBeforeMonth (y m : Nat) : Nat :=
  if _h : m ≤ 1 then 0 else daysBeforeMonth y (m - 1) + monthLen y (m - 1)
termination_by m
decreasing_by omega

/-- Epoch day number of the civil date `y-m-d`. -/
def dayNumber (y m d : Nat) : Nat := daysBeforeYear y + daysBeforeMonth y m + (d - 1)

/-- The civil year containing epoch day `n`, searching upward from candidate
year `y`; returns the year and the 0-based day of that year. -/
def yearOfDay (y n : Nat) : Nat × Nat :=
  if _h : n < yearLen y then (y, n) else yearOfDay (y + 1) (n - yearLen y)
termination_by n
decreasing_by
  have := yearLen_pos y
  omega

/-- The month containing 0-based day `n` of year `y`, searching upward from
month `m`; returns the month and the 1-based day of month. -/
def monthOfYearDay (y m n : Nat) : Nat × Nat :=
  if h : n < monthLen y m then (m, n + 1) else monthOfYearDay y (m + 1) (n - monthLen y m)
termination_by n
decreasing_by
  have := monthLen_pos y m
  omega

/-- Civil date (year, month, day) of epoch day `n`. -/
def civilOfDay (n : Nat) : Nat × Nat × Nat :=
  let yd := yearOfDay 1970 n
  let md := monthOfYearDay yd.1 1 yd.2
  (yd.1, md.1, md.2)

/-! ## Tokenization -/

/-- Whitespace trimming (`String.trim` of the source, over the character
list so that it evaluates by kernel reduction). -/
def strTrim (s : String) : String :=
  String.mk (((s.data.dropWhile Char.isWhitespace).reverse.dropWhile
    Char.isWhitespace).reverse)

def keepChar (c : Char) : Bool := c.isAlphanum || c == ':'

/-- Split on spaces, lowercase letters, drop punctuation inside tokens. -/
def splitWordsAux : List Char → List Char → List String
  | [], acc => if acc.isEmpty then [] else [String.mk acc.reverse]
  | c :: rest, acc =>
    if c == ' ' then
      (if acc.isEmpty then splitWordsAux rest []
       else String.mk acc.reverse :: splitWordsAux rest [])
    else if keepChar c then splitWordsAux rest (c.toLower :: acc)
    else splitWordsAux rest acc

def wordsOf (s : String) : List String := splitWordsAux s.data []

/-! ## Date/time parser model (`@/lib/dateParser`) -/

def weekdayNames : List String :=
  ["sunday", "monday", "tuesday", "wednesday", "thursday", "friday", "saturday"]

def monthNames : List String :=
  ["january", "february", "march", "april", "may", "june", "july", "august",
   "september", "october", "november", "december"]

def weekdayIdx (w : String) : Option Nat := weekdayNames.findIdx? (fun x => x == w)

def monthIdx (w : String) : Option Nat :=
  (monthNames.findIdx? (fun x => x == w)).map (fun i => i + 1)

def ordinalWords : List (String × Nat) :=
  [("first", 1), ("second", 2), ("third", 3), ("fourth", 4), ("fifth", 5),
   ("sixth", 6), ("seventh", 7), ("eighth", 8), ("ninth", 9), ("tenth", 10),
   ("eleventh", 11), ("twelfth", 12), ("thirteenth", 13), ("fourteenth", 14),
   ("fifteenth", 15), ("sixteenth", 16), ("seventeenth", 17), ("eighteenth", 18),
   ("nineteenth", 19), ("twentieth", 20), ("twentyfirst", 21), ("twentysecond", 22),
   ("twentythird", 23), ("twentyfourth", 24), ("twentyfifth", 25), ("twentysixth", 26),
   ("twentyseventh", 27), ("twentyeighth", 28), ("twentyninth", 29), ("thirtieth", 30),
   ("thirtyfirst", 31)]

def digitsVal : List Char → Nat → Nat
  | [], acc => acc
  | c :: cs, acc => digitsVal cs (acc * 10 + (c.toNat - 48))

/-- Leading run of digits of a token, with the rest of the token. -/
def leadingNat (cs : List Char) : Option (Nat × List Char) :=
  let ds := cs.takeWhile Char.isDigit
  if ds.isEmpty then none else some (digitsVal ds 0, cs.drop ds.length)

/-- A day-of-month token: an ordinal word, or digits with an optional ordinal
suffix, in range 1..31. -/
def dayOfMonthWord (w : String) : Option Nat :=
  match ordinalWords.find? (fun p => p.1 == w) with
  | some p => some p.2
  | none =>
    match leadingNat w.data with
    | some (n, rest) =>
      if rest.isEmpty || rest = ['s', 't'] || rest = ['n', 'd']
          || rest = ['r', 'd'] || rest = ['t', 'h'] then
        (if 1 ≤ n ∧ n ≤ 31 then some n else none)
      else none
    | none => none

def yearWord (w : String) : Option Nat :=
  match leadingNat w.data with
  | some (n, []) => if 1970 ≤ n ∧ n ≤ 9999 then some n else none
  | _ => none

/-- A clock token: digits, optional `:minutes`, optional glued `am`/`pm`.
Returns (hour, minute, glued meridiem: `some true` = pm). -/
def clockOf (w : String) : Option (Nat × Nat × Option Bool) :=
  match leadingNat w.data with
  | none => none
  | some (h, rest) =>
    let mr : Nat × List Char :=
      match rest with
      | ':' :: more =>
        (match leadingNat more with
         | some (m, r2) => (m, r2)
         | none => (0, more))
      | _ => (0, rest)
    let merid : Option Bool :=
      if mr.2 = ['p', 'm'] then some true
      else if mr.2 = ['a', 'm'] then some false
      else none
    if mr.2.isEmpty || mr.2 = ['p', 'm'] || mr.2 = ['a', 'm'] then
      (if h ≤ 23 ∧ mr.1 ≤ 59 then some (h, mr.1, merid) else none)
    else none

/-- First clock token that is plausibly a time: carries a glued meridiem,
is followed by an `am`/`pm` word, or is preceded by `at`. -/
def findClock : List String → Option String → Option (Nat × Nat × Option Bool)
  | [], _ => none
  | w :: rest, prev =>
    match clockOf w with
    | some (h, m, merid) =>
      let nextMerid : Option Bool :=
        match rest with
        | n :: _ => if n == "pm" then some true else if n == "am" then some false else none
        | [] => none
      if merid.isSome || nextMerid.isSome || prev == some "at" then
        some (h, m, (if merid.isSome then merid else nextMerid))
      else findClock rest (some w)
    | none => findClock rest (some w)

/-- Time of day (minutes) mentioned in the utterance, if any. -/
def parseTime (ws : List String) : Option Nat :=
  if ws.contains "noon" then some (12 * 60)
  else
    match findClock ws none with
    | some (h, m, merid) =>
      let merid2 : Option Bool :=
        match merid with
        | some b => some b
        | none =>
          if ws.contains "afternoon" || ws.contains "evening" then some true
          else if ws.contains "morning" then some false
          else none
      let h24 : Nat :=
        match merid2 with
        | some true => h % 12 + 12
        | some false => h % 12
        | none => h
      some (h24 * 60 + m)
    | none =>
      if ws.contains "morning" then some (9 * 60)
      else if ws.contains "afternoon" then some (15 * 60)
      else if ws.contains "evening" then some (18 * 60)
      else none

/-- A recognizable date anchor in the utterance. -/
inductive DateAnchor
  | today
  | tomorrow
  | weekday (w : Nat)
  | monthDay (m : Nat) (d : Nat) (year : Option Nat)
deriving DecidableEq, Repr

/-- First recognizable date anchor among the words. A month name must be
directly followed by a day-of-month token. -/
def findAnchor : List String → Option DateAnchor
  | [] => none
  | w :: rest =>
    if w == "today" then some .today
    else if w == "tomorrow" then some .tomorrow
    else
      match weekdayIdx w with
      | some i => some (.weekday i)
      | none =>
        match monthIdx w with
        | some m =>
          (match rest with
           | d :: rest2 =>
             (match dayOfMonthWord d with
              | some dd => some (.monthDay m dd (rest2.findSome? yearWord))
              | none => none)
           | [] => none)
        | none => findAnchor rest

/-- Modelled from the spec: `@/lib/dateParser.parseDateTime` is not in the
repository snapshot. Contract (spec section 4.1):
`parse(text, reference) -> Instant | ParseFailure`; recognizes weekday names
optionally qualified by `next`, absolute month-day expressions with optional
year and time, and the bare relative terms `today` / `tomorrow`; a missing
time of day defaults to 9:00; a missing year rolls the date forward to the
next year when the instant would fall before `reference`; `next <weekday>`
resolves strictly after the reference day, a bare weekday to the nearest
future occurrence (today only when the time of day has not yet passed);
failure to extract any recognizable date token yields `none`, never a
default such as the reference instant. -/
def parseDateTime (text : String) (reference : Nat) : Option Nat :=
  let ws := wordsOf text
  match findAnchor ws with
  | none => none
  | some anchor =>
    let refDay := reference / 1440
    let refTod := reference % 1440
    let tod := (parseTime ws).getD (9 * 60)
    match anchor with
    | .today => some (refDay * 1440 + tod)
    | .tomorrow => some ((refDay + 1) * 1440 + tod)
    | .weekday w =>
      let cur := (refDay + 4) % 7
      let delta := (w + 7 - cur) % 7
      let shift :=
        if ws.contains "next" then (if delta = 0 then 7 else delta)
        else if delta = 0 && tod ≤ refTod then 7 else delta
      some ((refDay + shift) * 1440 + tod)
    | .monthDay m d yr =>
      match yr with
      | some y => some (dayNumber y m d * 1440 + tod)
      | none =>
        let y0 := (yearOfDay 1970 refDay).1
        let cand := dayNumber y0 m d * 1440 + tod
        if cand < reference then some (dayNumber (y0 + 1) m d * 1440 + tod) else cand

/-- Whether the parser finds any recognizable date token in the text. -/
def hasDateAnchor (text : String) : Bool := (findAnchor (wordsOf text)).isSome

/-! ## Canonical instants and display formatting -/

/-- Modelled from the spec: the canonical instant serialization
(`Date.toISOString` in the adapters); an injective rendering of the
minute count suffices for the embedding. -/
def isoString (t : Nat) : String := "ISO:" ++ Nat.repr t

def decodeIso (s : String) : Option Nat :=
  match s.data with
  | 'I' :: 'S' :: 'O' :: ':' :: rest =>
    if rest ≠ [] ∧ rest.all Char.isDigit then some (digitsVal rest 0) else none
  | _ => none

def weekdayLongNames : List String :=
  ["Sunday", "Monday", "Tuesday", "Wednesday", "Thursday", "Friday", "Saturday"]

def monthShortNames : List String :=
  ["Jan", "Feb", "Mar", "Apr", "May", "Jun", "Jul", "Aug", "Sep", "Oct", "Nov", "Dec"]

def pad2 (n : Nat) : String := if n < 10 then "0" ++ Nat.repr n else Nat.repr n

def renderInstant (t : Nat) : String :=
  let day := t / 1440
  let tod := t % 1440
  let h := tod / 60
  let mi := tod % 60
  let c := civilOfDay day
  let wd := (day + 4) % 7
  let h12 := if h % 12 = 0 then 12 else h % 12
  let ampm := if h < 12 then "AM" else "PM"
  (weekdayLongNames.getD wd "") ++ ", " ++ (monthShortNames.getD (c.2.1 - 1) "")
    ++ " " ++ Nat.repr c.2.2 ++ " " ++ Nat.repr c.1 ++ " at "
    ++ Nat.repr h12 ++ ":" ++ pad2 mi ++ " " ++ ampm

/-- Modelled from the spec: `@/lib/dateParser.formatHumanReadable` is not in
the repository snapshot. Spec section 4.1: a stable, locale-consistent
rendering of a canonical instant, used only for display. -/
def formatHumanReadable (value : String) : String :=
  match decodeIso value with
  | some t => renderInstant t
  | none => value

/-! ## Data model -/

/-- The dialogue phase of a call (spec section 3, `CallState.phase`). -/
inductive Phase
  | greeting
  | collectingName
  | collectingDatetime
  | collectingReason
  | completed
deriving DecidableEq, Repr

/-- Per-call ephemeral state (spec section 3, mirrored by the webhook's uses
of the call-state store in `src/unnamed/part_000`). -/
structure CallState where
  callId : String
  phase : Phase
  customerName : Option String
  appointmentDateTime : Option String
  reason : Option String
  contactNumber : Option String
deriving DecidableEq, Repr

/-- A finalized booking record (spec section 3). -/
structure Appointment where
  id : String
  customerName : String
  appointmentDateTime : String
  contactNumber : String
  reason : String
  callSummary : String
  createdAt : String
deriving DecidableEq, Repr

/-- The caller-supplied fields of an appointment, before the store assigns
`id` and `createdAt`. -/
structure AppointmentInput where
  customerName : String
  appointmentDateTime : String
  contactNumber : String
  reason : String
  callSummary : String
deriving DecidableEq, Repr

/-! ## Call state store model (`@/lib/callStateStore`) -/

/-- The keyed in-memory call-state store, as a map from call id to state. -/
abbrev CallStore := String → Option CallState

def emptyCallStore : CallStore := fun _ => none

/-- Modelled from the spec: `@/lib/callStateStore.getCallState` is not in the
repository snapshot. Spec section 4.2: `get(callId) -> CallState`, creating a
state with phase `greeting` and contactNumber unset when absent. -/
def getCallState (store : CallStore) (callId : String) : CallState :=
  match store callId with
  | some st => st
  | none =>
    { callId := callId, phase := .greeting, customerName := none,
      appointmentDateTime := none, reason := none, contactNumber := none }

/-- Modelled from the spec: `@/lib/callStateStore.saveCallState` is not in the
repository snapshot. Spec section 4.2: `save(state)`, upsert by callId. -/
def saveCallState (store : CallStore) (st : CallState) : CallStore :=
  fun k => if k = st.callId then some st else store k

/-- Modelled from the spec: `@/lib/callStateStore.clearCallState` is not in
the repository snapshot. Spec section 4.2: `clear(callId)`, remove. -/
def clearCallState (store : CallStore) (callId : String) : CallStore :=
  fun k => if k = callId then none else store k

/-! ## Appointment store model (`@/lib/appointmentsStore`) -/

/-- Modelled from the spec: `@/lib/appointmentsStore.addAppointment` is not in
the repository snapshot. Spec sections 3 and 6: append-only store, assigns a
unique `id` and `createdAt` at creation, lists newest first. The collection
is the list, newest first; ids are derived from the count. -/
def addAppointment (now : Nat) (input : AppointmentInput)
    (appts : List Appointment) : Appointment × List Appointment :=
  let a : Appointment :=
    { id := "appt-" ++ Nat.repr appts.length,
      customerName := input.customerName,
      appointmentDateTime := input.appointmentDateTime,
      contactNumber := input.contactNumber,
      reason := input.reason,
      callSummary := input.callSummary,
      createdAt := isoString now }
  (a, a :: appts)

/-! ## Twilio voice webhook (`src/unnamed/part_000`, `POST`) -/

/-- The two TwiML response shapes the handler emits: a `<Gather>` whose action
posts back with the given `step` query parameter, or a terminal
`<Say>` + `<Hangup/>`. -/
inductive TwimlResponse
  | gather (prompt : String) (step : String)
  | say (message : String)
deriving DecidableEq, Repr

/-- The form fields of one Twilio webhook request. -/
structure TwilioForm where
  callSid : Option String
  fromNumber : Option String
  speechResult : Option String
  digits : Option String
deriving DecidableEq, Repr

/-- `ensureSpeechResult` from `src/unnamed/part_000`: a trimmed non-empty
string, else `none`. -/
def ensureSpeechResult : Option String → Option String
  | some v => if 0 < (strTrim v).length then some (strTrim v) else none
  | none => none

/-- `SpeechResult` falling back to `Digits`, both through
`ensureSpeechResult`, as in `src/unnamed/part_000` lines 73-75. -/
def speechOf (form : TwilioForm) : Option String :=
  (ensureSpeechResult form.speechResult).orElse fun _ => ensureSpeechResult form.digits

/-- JavaScript string falsiness of an optional string field (`!state.x`). -/
def falsyOpt : Option String → Bool
  | none => true
  | some s => decide (s = "")

/-- The outcome of one webhook turn: the TwiML reply, the call-state store
afterwards, and the appointment list afterwards. -/
structure WebhookResult where
  response : TwimlResponse
  store : CallStore
  appointments : List Appointment

def greetingPrompt : String :=
  "Hello! You have reached the Horizon Clinic virtual scheduling assistant. May I have your full name?"

def nameRetryPrompt : String :=
  "I did not hear a name. Could you please tell me your full name?"

def datetimeMissingPrompt : String :=
  "I didn't catch the appointment time. Please share the day and time you'd prefer."

def datetimeUnparsedPrompt : String :=
  "I'm sorry, I couldn't understand that date. Please state something like Friday at 2 PM or June fifth at 9 in the morning."

def reasonPrompt : String :=
  "Great. What is the reason for your visit so I can let the practitioner prepare?"

def reasonRetryPrompt : String :=
  "Could you quickly describe the reason for your appointment?"

def abortMessage : String :=
  "It seems I am missing some information to complete the booking. Please try again later or reach out to our reception team."

def errorMessage : String :=
  "I'm sorry, something went wrong while handling your request. Please try again later."

/-- The `POST` handler of `src/unnamed/part_000` (the Twilio voice webhook),
one turn: `now` is the wall clock (the date parser's reference), `freshId`
the uuid used when no `CallSid` form field is present. The call-state store
has value semantics: state changes persist only through `saveCallState`
(spec section 4.2, `save(state)` upsert by callId). -/
def twilioVoicePost (now : Nat) (freshId : String) (stepParam : Option String)
    (form : TwilioForm) (store : CallStore) (appts : List Appointment) : WebhookResult :=
  let step := stepParam.getD "init"
  let callSid := form.callSid.getD freshId
  let callerNumber := form.fromNumber
  let speechResult := speechOf form
  let state0 := getCallState store callSid
  let state :=
    if callerNumber.isSome then { state0 with contactNumber := callerNumber } else state0
  if step = "init" then
    { response := .gather greetingPrompt "name",
      store := saveCallState store state, appointments := appts }
  else if step = "name" then
    match speechResult with
    | none =>
      { response := .gather nameRetryPrompt "name", store := store, appointments := appts }
    | some speech =>
      let state1 := { state with customerName := some speech, phase := .collectingDatetime }
      { response := .gather
          ("Thanks " ++ speech ++ ". What day and time would you like to book the appointment for?")
          "datetime",
        store := saveCallState store state1, appointments := appts }
  else if step = "datetime" then
    match speechResult with
    | none =>
      { response := .gather datetimeMissingPrompt "datetime",
        store := store, appointments := appts }
    | some speech =>
      match parseDateTime speech now with
      | none =>
        { response := .gather datetimeUnparsedPrompt "datetime",
          store := store, appointments := appts }
      | some t =>
        let state1 :=
          { state with appointmentDateTime := some (isoString t), phase := .collectingReason }
        { response := .gather reasonPrompt "reason",
          store := saveCallState store state1, appointments := appts }
  else if step = "reason" then
    match speechResult with
    | none =>
      { response := .gather reasonRetryPrompt "reason", store := store, appointments := appts }
    | some speech =>
      let state1 := { state with reason := some speech, phase := .completed }
      let store1 := saveCallState store state1
      if falsyOpt state1.customerName || falsyOpt state1.appointmentDateTime
          || falsyOpt state1.reason then
        { response := .say abortMessage, store := store1, appointments := appts }
      else
        let added := addAppointment now
          { customerName := state1.customerName.getD "",
            appointmentDateTime := state1.appointmentDateTime.getD "",
            contactNumber := state1.contactNumber.getD "Unknown",
            reason := state1.reason.getD "",
            callSummary := "AI assistant booked for " ++ state1.customerName.getD ""
              ++ " to discuss " ++ state1.reason.getD "" ++ "." }
          appts
        let store2 := clearCallState store1 callSid
        { response := .say
            ("Thanks " ++ added.1.customerName ++ ". I have scheduled your appointment for "
              ++ formatHumanReadable added.1.appointmentDateTime
              ++ ". We look forward to seeing you then."),
          store := store2, appointments := added.2 }
  else
    { response := .say errorMessage, store := store, appointments := appts }

/-- A sequence of webhook turns, each a `(step query parameter, form)` pair,
folded through `twilioVoicePost`. -/
def runTurns (now : Nat) (freshId : String) :
    List (Option String × TwilioForm) → CallStore → List Appointment →
    CallStore × List Appointment
  | [], store, appts => (store, appts)
  | t :: rest, store, appts =>
    let r := twilioVoicePost now freshId t.1 t.2 store appts
    runTurns now freshId rest r.store r.appointments

/-! ## Appointments API route
(`src/agentic-call-agent/src/app/api/appointments/route.ts`, `POST`) -/

/-- A parsed JSON request body, abstracted to the shapes the route can
distinguish: `jobj` carries the five string fields the route reads (a field
of any other JSON type reads as absent, as property access yields no
string). -/
inductive JsonValue
  | jnull
  | jbool (b : Bool)
  | jnum (n : Int)
  | jstr (s : String)
  | jarr (len : Nat)
  | jobj (contactNumber customerName appointmentDateTime reason callSummary : Option String)
deriving DecidableEq, Repr

/-- JavaScript truthiness of a JSON value (`!payload`). -/
def JsonValue.truthy : JsonValue → Bool
  | .jnull => false
  | .jbool b => b
  | .jnum n => decide (n ≠ 0)
  | .jstr s => decide (s ≠ "")
  | .jarr _ => true
  | .jobj _ _ _ _ _ => true

def JsonValue.fieldContactNumber : JsonValue → Option String
  | .jobj c _ _ _ _ => c
  | _ => none

def JsonValue.fieldCustomerName : JsonValue → Option String
  | .jobj _ n _ _ _ => n
  | _ => none

def JsonValue.fieldAppointmentDateTime : JsonValue → Option String
  | .jobj _ _ d _ _ => d
  | _ => none

def JsonValue.fieldReason : JsonValue → Option String
  | .jobj _ _ _ r _ => r
  | _ => none

def JsonValue.fieldCallSummary : JsonValue → Option String
  | .jobj _ _ _ _ s => s
  | _ => none

/-- The HTTP outcome of the appointments `POST` route: 201 with the created
appointment, or 400 with an error message. -/
inductive ApiResponse
  | created (appointment : Appointment)
  | badRequest (error : String)
deriving DecidableEq, Repr

/-- The `POST` handler of `route.ts`: `body` is the request body after JSON
parsing (`none` when `request.json()` threw, which the catch block turns
into a 400). -/
def appointmentsPost (now : Nat) (body : Option JsonValue)
    (appts : List Appointment) : ApiResponse × List Appointment :=
  match body with
  | none => (.badRequest "Unable to create appointment", appts)
  | some payload =>
    if !payload.truthy then (.badRequest "Request body missing", appts)
    else
      let added := addAppointment now
        { contactNumber := payload.fieldContactNumber.getD "Unknown",
          customerName := payload.fieldCustomerName.getD "",
          appointmentDateTime := payload.fieldAppointmentDateTime.getD "",
          reason := payload.fieldReason.getD "",
          callSummary := payload.fieldCallSummary.getD
            ("Conversation booked for " ++ payload.fieldCustomerName.getD "client" ++ ".") }
        appts
      (.created added.1, added.2)

/-! ## Browser simulator (`CallAgent.tsx`, `handleSubmitResponse`) -/

/-- `agentSteps` from `CallAgent.tsx`: scripted step ids and prompts. -/
def agentSteps : List (String × String) :=
  [("greeting",
    "Hello! This is Aurora, the autonomous scheduling assistant for Horizon Clinic. Thanks for calling. Who do I have the pleasure of speaking with today?"),
   ("datetime",
    "Perfect, thank you. What day and time works best for your visit?"),
   ("reason",
    "Got it. Lastly, could you share the reason for your appointment so the provider can prepare?"),
   ("confirm",
    "Thanks! Let me process that for you and lock in the appointment.")]

def simApologyPrompt : String :=
  "Apologies, I couldn't recognise that time. Could you rephrase it, for example next Tuesday at 3 PM?"

/-- The `AppointmentForm` react state of `CallAgent.tsx`. -/
structure SimForm where
  name : Option String
  requestedSlot : Option String
  reason : Option String
  phoneNumber : Option String
deriving DecidableEq, Repr

/-- The react state of `CallAgent.tsx` that `handleSubmitResponse` reads and
writes. Transcript entries are `(isAgent, text)`. -/
structure SimState where
  callActive : Bool
  callCompleted : Bool
  isSubmitting : Bool
  currentStepIdx : Int
  pendingResponse : String
  form : SimForm
  transcript : List (Bool × String)
  error : Option String
deriving DecidableEq, Repr

/-- The JSON payload the simulator posts to `/api/appointments`. -/
structure SimPost where
  customerName : String
  appointmentDateTime : String
  reason : String
  contactNumber : String
  callSummary : String
deriving DecidableEq, Repr

/-- `handleSubmitResponse` from `CallAgent.tsx`, as a function of the react
state; returns the new state and the list of payloads posted to
`/api/appointments` during the turn (the POST succeeds for these payloads,
see `appointmentsPost`: a JSON object is truthy). -/
def handleSubmitResponse (now : Nat) (st : SimState) : SimState × List SimPost :=
  if !st.callActive || st.isSubmitting then (st, [])
  else if strTrim st.pendingResponse = "" then
    ({ st with error := some "Please provide a response before continuing." }, [])
  else
    let responseText := strTrim st.pendingResponse
    let st1 := { st with
      error := none,
      transcript := st.transcript ++ [(false, responseText)],
      pendingResponse := "" }
    let activeStep : Option String :=
      if (0 : Int) ≤ st1.currentStepIdx then
        (agentSteps.get? st1.currentStepIdx.toNat).map Prod.fst
      else none
    if activeStep = some "greeting" then
      ({ st1 with
          form := { st1.form with name := some responseText },
          currentStepIdx := 1,
          transcript := st1.transcript ++ [(true, (agentSteps.get? 1).elim "" Prod.snd)] }, [])
    else if activeStep = some "datetime" then
      match parseDateTime responseText now with
      | none =>
        ({ st1 with transcript := st1.transcript ++ [(true, simApologyPrompt)] }, [])
      | some t =>
        ({ st1 with
            form := { st1.form with requestedSlot := some (isoString t) },
            currentStepIdx := 2,
            transcript := st1.transcript ++ [(true, (agentSteps.get? 2).elim "" Prod.snd)] }, [])
    else if activeStep = some "reason" then
      let appointmentDate := st1.form.requestedSlot.getD (isoString now)
      let payload : SimPost :=
        { customerName := st1.form.name.getD "Caller",
          appointmentDateTime := appointmentDate,
          reason := responseText,
          contactNumber := st1.form.phoneNumber.getD "N/A",
          callSummary := "AI agent booked " ++ st1.form.name.getD "caller"
            ++ " for " ++ responseText ++ "." }
      ({ st1 with
          form := { st1.form with reason := some responseText },
          currentStepIdx := 3,
          callCompleted := true,
          isSubmitting := false,
          transcript := st1.transcript
            ++ [(true, (agentSteps.get? 3).elim "" Prod.snd),
                (true, "All set! I have you on the schedule for "
                  ++ formatHumanReadable appointmentDate
                  ++ ". You'll also get a confirmation text shortly. Have a wonderful day!")] },
        [payload])
    else (st1, [])

/-! ## Substring occurrence -/

/-- Whether `needle` occurs as a contiguous run inside `hay`. -/
def strOccurs (needle : List Char) : List Char → Bool
  | [] => needle.isEmpty
  | c :: rest => needle.isPrefixOf (c :: rest) || strOccurs needle rest

/-- `needle` occurs as a substring of `hay`. -/
def strContains (hay needle : String) : Bool := strOccurs needle.data hay.data

theorem isPrefixOf_append (l t : List Char) : l.isPrefixOf (l ++ t) = true := by
  induction l with
  | nil => simp [List.isPrefixOf]
  | cons c cs _ => simp [List.isPrefixOf]

theorem strOccurs_self_append (n t : List Char) : strOccurs n (n ++ t) = true := by
  cases n with
  | nil => cases t <;> simp [strOccurs, List.isPrefixOf]
  | cons c cs => simp [strOccurs, isPrefixOf_append]

theorem strOccurs_of_eq_append (n pre post hay : List Char)
    (h : hay = pre ++ n ++ post) : strOccurs n hay = true := by
  subst h
  induction pre with
  | nil => exact strOccurs_self_append n post
  | cons c cs ih =>
    show (n.isPrefixOf (c :: (cs ++ n ++ post)) || strOccurs n (cs ++ n ++ post)) = true
    rw [ih, Bool.or_true]

theorem strContains_intro (hay needle : String) (pre post : List Char)
    (h : hay.data = pre ++ needle.data ++ post) : strContains hay needle = true :=
  strOccurs_of_eq_append needle.data pre post hay.data h

/-! ## Basic facts about speech extraction -/

theorem ensureSpeechResult_ne_empty {v : Option String} {s : String}
    (h : ensureSpeechResult v = some s) : s ≠ "" := by
  cases v with
  | none => simp [ensureSpeechResult] at h
  | some t =>
    simp only [ensureSpeechResult] at h
    split at h
    · rename_i hl
      injection h with h
      subst h
      intro he
      rw [he] at hl
      exact absurd hl (by decide)
    · exact absurd h (by simp)

theorem speechOf_ne_empty {form : TwilioForm} {s : String}
    (h : speechOf form = some s) : s ≠ "" := by
  unfold speechOf at h
  cases he : ensureSpeechResult form.speechResult with
  | some t =>
    rw [he] at h
    simp only [Option.orElse] at h
    injection h with h
    exact h ▸ ensureSpeechResult_ne_empty he
  | none =>
    rw [he] at h
    simp only [Option.orElse] at h
    exact ensureSpeechResult_ne_empty h

theorem getCallState_save (store : CallStore) (st : CallState) (k : String) :
    getCallState (saveCallState store st) k
      = if k = st.callId then st else getCallState store k := by
  unfold getCallState saveCallState
  by_cases h : k = st.callId <;> simp [h]

/-! ## Step characterizations of the webhook handler -/

theorem twilio_init_eq (now : Nat) (freshId sid : String) (form : TwilioForm)
    (store : CallStore) (appts : List Appointment) (hsid : form.callSid = some sid) :
    twilioVoicePost now freshId (some "init") form store appts =
      { response := .gather greetingPrompt "name",
        store := saveCallState store
          (if form.fromNumber.isSome then
            { getCallState store sid with contactNumber := form.fromNumber }
           else getCallState store sid),
        appointments := appts } := by
  simp only [twilioVoicePost, Option.getD, hsid]; rfl

theorem twilio_name_none_eq (now : Nat) (freshId sid : String) (form : TwilioForm)
    (store : CallStore) (appts : List Appointment)
    (hsid : form.callSid = some sid) (hs : speechOf form = none) :
    twilioVoicePost now freshId (some "name") form store appts =
      { response := .gather nameRetryPrompt "name", store := store, appointments := appts } := by
  simp only [twilioVoicePost, Option.getD, hsid, hs]; rfl

theorem twilio_name_some_eq (now : Nat) (freshId sid r : String) (form : TwilioForm)
    (store : CallStore) (appts : List Appointment)
    (hsid : form.callSid = some sid) (hs : speechOf form = some r) :
    twilioVoicePost now freshId (some "name") form store appts =
      { response := .gather
          ("Thanks " ++ r ++ ". What day and time would you like to book the appointment for?")
          "datetime",
        store := saveCallState store
          { (if form.fromNumber.isSome then
              { getCallState store sid with contactNumber := form.fromNumber }
             else getCallState store sid) with
            customerName := some r, phase := Phase.collectingDatetime },
        appointments := appts } := by
  simp only [twilioVoicePost, Option.getD, hsid, hs]; rfl

theorem twilio_datetime_none_eq (now : Nat) (freshId sid : String) (form : TwilioForm)
    (store : CallStore) (appts : List Appointment)
    (hsid : form.callSid = some sid) (hs : speechOf form = none) :
    twilioVoicePost now freshId (some "datetime") form store appts =
      { response := .gather datetimeMissingPrompt "datetime",
        store := store, appointments := appts } := by
  simp only [twilioVoicePost, Option.getD, hsid, hs]; rfl

theorem twilio_datetime_fail_eq (now : Nat) (freshId sid r : String) (form : TwilioForm)
    (store : CallStore) (appts : List Appointment)
    (hsid : form.callSid = some sid) (hs : speechOf form = some r)
    (hp : parseDateTime r now = none) :
    twilioVoicePost now freshId (some "datetime") form store appts =
      { response := .gather datetimeUnparsedPrompt "datetime",
        store := store, appointments := appts } := by
  simp only [twilioVoicePost, Option.getD, hsid, hs, hp]; rfl

theorem twilio_datetime_ok_eq (now t : Nat) (freshId sid r : String) (form : TwilioForm)
    (store : CallStore) (appts : List Appointment)
    (hsid : form.callSid = some sid) (hs : speechOf form = some r)
    (hp : parseDateTime r now = some t) :
    twilioVoicePost now freshId (some "datetime") form store appts =
      { response := .gather reasonPrompt "reason",
        store := saveCallState store
          { (if form.fromNumber.isSome then
              { getCallState store sid with contactNumber := form.fromNumber }
             else getCallState store sid) with
            appointmentDateTime := some (isoString t), phase := Phase.collectingReason },
        appointments := appts } := by
  simp only [twilioVoicePost, Option.getD, hsid, hs, hp]; rfl

theorem twilio_reason_none_eq (now : Nat) (freshId sid : String) (form : TwilioForm)
    (store : CallStore) (appts : List Appointment)
    (hsid : form.callSid = some sid) (hs : speechOf form = none) :
    twilioVoicePost now freshId (some "reason") form store appts =
      { response := .gather reasonRetryPrompt "reason", store := store, appointments := appts } := by
  simp only [twilioVoicePost, Option.getD, hsid, hs]; rfl

theorem twilio_reason_some_eq (now : Nat) (freshId sid r : String) (form : TwilioForm)
    (store : CallStore) (appts : List Appointment)
    (hsid : form.callSid = some sid) (hs : speechOf form = some r) :
    twilioVoicePost now freshId (some "reason") form store appts =
      (let state :=
        if form.fromNumber.isSome then
          { getCallState store sid with contactNumber := form.fromNumber }
        else getCallState store sid
       let state1 := { state with reason := some r, phase := Phase.completed }
       let store1 := saveCallState store state1
       if falsyOpt state1.customerName || falsyOpt state1.appointmentDateTime
           || falsyOpt state1.reason then
         { response := .say abortMessage, store := store1, appointments := appts }
       else
         let added := addAppointment now
           { customerName := state1.customerName.getD "",
             appointmentDateTime := state1.appointmentDateTime.getD "",
             contactNumber := state1.contactNumber.getD "Unknown",
             reason := state1.reason.getD "",
             callSummary := "AI assistant booked for " ++ state1.customerName.getD ""
               ++ " to discuss " ++ state1.reason.getD "" ++ "." }
           appts
         { response := .say
             ("Thanks " ++ added.1.customerName ++ ". I have scheduled your appointment for "
               ++ formatHumanReadable added.1.appointmentDateTime
               ++ ". We look forward to seeing you then."),
           store := clearCallState store1 sid, appointments := added.2 }) := by
  simp only [twilioVoicePost, Option.getD, hsid, hs]; rfl

theorem twilio_other_eq (now : Nat) (freshId step : String) (form : TwilioForm)
    (store : CallStore) (appts : List Appointment)
    (h1 : step ≠ "init") (h2 : step ≠ "name") (h3 : step ≠ "datetime") (h4 : step ≠ "reason") :
    twilioVoicePost now freshId (some step) form store appts =
      { response := .say errorMessage, store := store, appointments := appts } := by
  simp only [twilioVoicePost, Option.getD, if_neg h1, if_neg h2, if_neg h3, if_neg h4]

/-! ## Step characterizations of the simulator -/

theorem sim_greeting_eq (now : Nat) (text : String) (st : SimState)
    (hca : st.callActive = true) (hsub : st.isSubmitting = false)
    (hpend : strTrim st.pendingResponse = text) (hne : text ≠ "")
    (hidx : st.currentStepIdx = 0) :
    handleSubmitResponse now st =
      ({ st with
          error := none, pendingResponse := "",
          form := { st.form with name := some text },
          currentStepIdx := 1,
          transcript := st.transcript ++ [(false, text)]
            ++ [(true, "Perfect, thank you. What day and time works best for your visit?")] },
        []) := by
  simp only [handleSubmitResponse, hca, hsub, hidx, hpend, if_neg hne]; rfl

theorem sim_datetime_fail_eq (now : Nat) (text : String) (st : SimState)
    (hca : st.callActive = true) (hsub : st.isSubmitting = false)
    (hpend : strTrim st.pendingResponse = text) (hne : text ≠ "")
    (hidx : st.currentStepIdx = 1) (hp : parseDateTime text now = none) :
    handleSubmitResponse now st =
      ({ st with
          error := none, pendingResponse := "",
          transcript := st.transcript ++ [(false, text)] ++ [(true, simApologyPrompt)] },
        []) := by
  simp only [handleSubmitResponse, hca, hsub, hidx, hpend, if_neg hne, hp]; rfl

theorem sim_reason_eq (now : Nat) (text : String) (st : SimState)
    (hca : st.callActive = true) (hsub : st.isSubmitting = false)
    (hpend : strTrim st.pendingResponse = text) (hne : text ≠ "")
    (hidx : st.currentStepIdx = 2) :
    handleSubmitResponse now st =
      ({ st with
          error := none, pendingResponse := "",
          form := { st.form with reason := some text },
          currentStepIdx := 3,
          callCompleted := true,
          isSubmitting := false,
          transcript := st.transcript ++ [(false, text)]
            ++ [(true, "Thanks! Let me process that for you and lock in the appointment."),
                (true, "All set! I have you on the schedule for "
                  ++ formatHumanReadable (st.form.requestedSlot.getD (isoString now))
                  ++ ". You'll also get a confirmation text shortly. Have a wonderful day!")] },
        [{ customerName := st.form.name.getD "Caller",
           appointmentDateTime := st.form.requestedSlot.getD (isoString now),
           reason := text,
           contactNumber := st.form.phoneNumber.getD "N/A",
           callSummary := "AI agent booked " ++ st.form.name.getD "caller"
             ++ " for " ++ text ++ "." }]) := by
  simp only [handleSubmitResponse, hca, hsub, hidx, hpend, if_neg hne]; rfl

/-! ## Concrete fixtures for witnesses and counterexamples -/

/-- A reference wall clock for concrete runs: minute 29491200 is 00:00 of
epoch day 20480, a Tuesday (2026-01-27). -/
def refNow : Nat := 29491200

def wForm (s : String) : TwilioForm :=
  { callSid := some "c1", fromNumber := none, speechResult := some s, digits := none }

def wFormEmpty : TwilioForm :=
  { callSid := some "c1", fromNumber := none, speechResult := none, digits := none }

def storeAtReason : CallStore :=
  saveCallState emptyCallStore
    { callId := "c1", phase := Phase.collectingReason, customerName := some "Jane Doe",
      appointmentDateTime := some (isoString 29491200), reason := none, contactNumber := none }

def storeAtDatetime : CallStore :=
  saveCallState emptyCallStore
    { callId := "c1", phase := Phase.collectingDatetime, customerName := some "Jane Doe",
      appointmentDateTime := none, reason := none, contactNumber := none }

def storeAtGreeting : CallStore :=
  saveCallState emptyCallStore
    { callId := "c1", phase := Phase.greeting, customerName := none,
      appointmentDateTime := none, reason := none, contactNumber := none }

/-! ## C1 -/

/-- C1: when the reason-phase turn arrives with a non-empty utterance and the
call's state already holds a customer name and an appointment date, the
webhook creates exactly one Appointment (with the synthesized call summary),
removes the CallState for the call id, and replies with a terminal
confirmation message that contains the captured name and the human-readable
rendering of the appointment date. -/
theorem webhook_reason_success_books_once
    (now : Nat) (freshId sid r n d : String) (form : TwilioForm)
    (store : CallStore) (appts : List Appointment)
    (hsid : form.callSid = some sid)
    (hs : speechOf form = some r)
    (hn : (getCallState store sid).customerName = some n) (hn0 : n ≠ "")
    (hd : (getCallState store sid).appointmentDateTime = some d) (hd0 : d ≠ "") :
    (∃ a, (twilioVoicePost now freshId (some "reason") form store appts).appointments
          = a :: appts
        ∧ a.customerName = n ∧ a.appointmentDateTime = d ∧ a.reason = r
        ∧ a.callSummary = "AI assistant booked for " ++ n ++ " to discuss " ++ r ++ ".")
    ∧ (twilioVoicePost now freshId (some "reason") form store appts).store sid = none
    ∧ (twilioVoicePost now freshId (some "reason") form store appts).response
        = .say ("Thanks " ++ n ++ ". I have scheduled your appointment for "
            ++ formatHumanReadable d ++ ". We look forward to seeing you then.")
    ∧ strContains ("Thanks " ++ n ++ ". I have scheduled your appointment for "
        ++ formatHumanReadable d ++ ". We look forward to seeing you then.") n = true
    ∧ strContains ("Thanks " ++ n ++ ". I have scheduled your appointment for "
        ++ formatHumanReadable d ++ ". We look forward to seeing you then.")
        (formatHumanReadable d) = true := by
  have hr0 : r ≠ "" := speechOf_ne_empty hs
  have fn : falsyOpt (some n) = false := by simp only [falsyOpt]; exact decide_eq_false hn0
  have fd : falsyOpt (some d) = false := by simp only [falsyOpt]; exact decide_eq_false hd0
  have fr : falsyOpt (some r) = false := by simp only [falsyOpt]; exact decide_eq_false hr0
  rw [twilio_reason_some_eq now freshId sid r form store appts hsid hs]
  simp only [apply_ite CallState.customerName, apply_ite CallState.appointmentDateTime,
    ite_self, hn, hd, fn, fd, fr, Bool.or_false, Bool.false_or, if_false,
    addAppointment, clearCallState, Option.getD_some]
  refine ⟨⟨_, rfl, rfl, rfl, rfl, rfl⟩, by simp [clearCallState], rfl, ?_, ?_⟩
  · exact strContains_intro _ _ "Thanks ".data
      ((". I have scheduled your appointment for " ++ formatHumanReadable d
        ++ ". We look forward to seeing you then.").data)
      (by simp [String.data_append, List.append_assoc])
  · exact strContains_intro _ _
      ("Thanks " ++ n ++ ". I have scheduled your appointment for ").data
      (". We look forward to seeing you then.".data)
      (by simp [String.data_append, List.append_assoc])

/-- C1 witness: the concrete reason turn `annual checkup` for a call that
already holds name `Jane Doe` and a parsed date. -/
theorem webhook_reason_success_books_once_witness :
    (∃ a, (twilioVoicePost refNow "f" (some "reason") (wForm "annual checkup")
            storeAtReason []).appointments = a :: ([] : List Appointment)
        ∧ a.customerName = "Jane Doe" ∧ a.appointmentDateTime = isoString 29491200
        ∧ a.reason = "annual checkup"
        ∧ a.callSummary = "AI assistant booked for " ++ "Jane Doe" ++ " to discuss "
            ++ "annual checkup" ++ ".")
    ∧ (twilioVoicePost refNow "f" (some "reason") (wForm "annual checkup")
        storeAtReason []).store "c1" = none
    ∧ (twilioVoicePost refNow "f" (some "reason") (wForm "annual checkup")
        storeAtReason []).response
        = .say ("Thanks " ++ "Jane Doe" ++ ". I have scheduled your appointment for "
            ++ formatHumanReadable (isoString 29491200)
            ++ ". We look forward to seeing you then.")
    ∧ strContains ("Thanks " ++ "Jane Doe" ++ ". I have scheduled your appointment for "
        ++ formatHumanReadable (isoString 29491200)
        ++ ". We look forward to seeing you then.") "Jane Doe" = true
    ∧ strContains ("Thanks " ++ "Jane Doe" ++ ". I have scheduled your appointment for "
        ++ formatHumanReadable (isoString 29491200)
        ++ ". We look forward to seeing you then.")
        (formatHumanReadable (isoString 29491200)) = true :=
  webhook_reason_success_books_once refNow "f" "c1" "annual checkup" "Jane Doe"
    (isoString 29491200) (wForm "annual checkup") storeAtReason []
    rfl rfl rfl (by decide) rfl (by decide)

/-! ## C3 -/

/-- C3 counterexample: a reason-phase turn on a fresh call (name and date
never collected) replies with the terminal apology and creates no
Appointment, but the CallState for the call id is still present in the store
afterwards (saved with phase `completed`), contradicting the claim that the
abort path removes it. -/
theorem webhook_abort_keeps_state_cex :
    (twilioVoicePost refNow "f" (some "reason") (wForm "checkup")
        emptyCallStore []).response = .say abortMessage
    ∧ (twilioVoicePost refNow "f" (some "reason") (wForm "checkup")
        emptyCallStore []).appointments = []
    ∧ ((twilioVoicePost refNow "f" (some "reason") (wForm "checkup")
        emptyCallStore []).store "c1").isSome = true := by
  exact ⟨by decide, by decide, by decide⟩

/-- C3 (amended): when the reason-phase turn finds the customer name or the
appointment date still unset, the webhook replies with the terminal apology
and creates no Appointment, but it keeps the CallState (saved with phase
`completed`, the reason recorded) instead of removing it from the store. -/
theorem webhook_abort_no_booking
    (now : Nat) (freshId sid r : String) (form : TwilioForm)
    (store : CallStore) (appts : List Appointment)
    (hsid : form.callSid = some sid)
    (hs : speechOf form = some r)
    (hcid : (getCallState store sid).callId = sid)
    (hmiss : falsyOpt (getCallState store sid).customerName = true
      ∨ falsyOpt (getCallState store sid).appointmentDateTime = true) :
    (twilioVoicePost now freshId (some "reason") form store appts).response
      = .say abortMessage
    ∧ (twilioVoicePost now freshId (some "reason") form store appts).appointments = appts
    ∧ (twilioVoicePost now freshId (some "reason") form store appts).store sid
      = some { (if form.fromNumber.isSome then
            { getCallState store sid with contactNumber := form.fromNumber }
          else getCallState store sid) with
          reason := some r, phase := Phase.completed } := by
  rw [twilio_reason_some_eq now freshId sid r form store appts hsid hs]
  have hguard :
      (falsyOpt (getCallState store sid).customerName
        || falsyOpt (getCallState store sid).appointmentDateTime
        || falsyOpt (some r)) = true := by
    rcases hmiss with h | h <;> simp [h]
  simp only [apply_ite CallState.customerName, apply_ite CallState.appointmentDateTime,
    apply_ite CallState.callId, ite_self]
  simp only [hguard, if_true]
  refine ⟨trivial, trivial, ?_⟩
  simp [saveCallState, hcid]

/-- C3 witness: the fresh-call reason turn of the counterexample, through the
amended theorem. -/
theorem webhook_abort_no_booking_witness :
    (twilioVoicePost refNow "f" (some "reason") (wForm "checkup")
        emptyCallStore []).response = .say abortMessage
    ∧ (twilioVoicePost refNow "f" (some "reason") (wForm "checkup")
        emptyCallStore []).appointments = []
    ∧ (twilioVoicePost refNow "f" (some "reason") (wForm "checkup")
        emptyCallStore []).store "c1"
      = some { (if (wForm "checkup").fromNumber.isSome then
            { getCallState emptyCallStore "c1" with contactNumber := (wForm "checkup").fromNumber }
          else getCallState emptyCallStore "c1") with
          reason := some "checkup", phase := Phase.completed } :=
  webhook_abort_no_booking refNow "f" "c1" "checkup" (wForm "checkup")
    emptyCallStore [] rfl rfl rfl (Or.inl rfl)

/-! ## C5 -/

/-- C5: replaying the terminal reason utterance after the call completed (its
CallState cleared from the store) creates no further Appointment: the replay
is treated as a fresh call, whose state starts at phase `greeting`, and ends
in the defensive apology. -/
theorem webhook_replay_fresh_call
    (now : Nat) (freshId sid r : String) (form : TwilioForm)
    (store : CallStore) (appts : List Appointment)
    (hsid : form.callSid = some sid)
    (hs : speechOf form = some r)
    (hclear : store sid = none) :
    (twilioVoicePost now freshId (some "reason") form store appts).appointments = appts
    ∧ (getCallState store sid).phase = Phase.greeting
    ∧ (twilioVoicePost now freshId (some "reason") form store appts).response
      = .say abortMessage := by
  have hmiss : falsyOpt (getCallState store sid).customerName = true := by
    simp [getCallState, hclear, falsyOpt]
  have hcid : (getCallState store sid).callId = sid := by
    simp [getCallState, hclear]
  obtain ⟨h1, h2, _⟩ :=
    webhook_abort_no_booking now freshId sid r form store appts hsid hs hcid (Or.inl hmiss)
  exact ⟨h2, by simp [getCallState, hclear], h1⟩

/-- C5 witness: the replayed reason utterance against an empty store. -/
theorem webhook_replay_fresh_call_witness :
    (twilioVoicePost refNow "f" (some "reason") (wForm "annual checkup")
        emptyCallStore []).appointments = []
    ∧ (getCallState emptyCallStore "c1").phase = Phase.greeting
    ∧ (twilioVoicePost refNow "f" (some "reason") (wForm "annual checkup")
        emptyCallStore []).response = .say abortMessage :=
  webhook_replay_fresh_call refNow "f" "c1" "annual checkup" (wForm "annual checkup")
    emptyCallStore [] rfl rfl rfl

/-! ## C4 -/

/-- C4 counterexample: at the datetime step, the empty utterance and the
unparseable utterance `banana sandwich` both re-gather for the same step, but
with two different clarification prompt texts, contradicting the claim that
the prompt text is exactly the same. -/
theorem webhook_datetime_prompts_differ_cex :
    (twilioVoicePost refNow "f" (some "datetime") wFormEmpty storeAtDatetime []).response
      = .gather datetimeMissingPrompt "datetime"
    ∧ (twilioVoicePost refNow "f" (some "datetime") (wForm "banana sandwich")
        storeAtDatetime []).response = .gather datetimeUnparsedPrompt "datetime"
    ∧ datetimeMissingPrompt ≠ datetimeUnparsedPrompt := by
  exact ⟨by decide, by decide, by decide⟩

/-- C4 (amended): at the datetime step, an empty (after trimming) utterance
and an utterance the date parser fails on both leave the stored call state
(hence the phase, `collecting-datetime`) unchanged and both re-gather for the
`datetime` step, but with different clarification prompt texts: the
missing-input wording versus the could-not-understand wording. -/
theorem webhook_datetime_retry_in_place
    (now : Nat) (freshId sid u : String) (form1 form2 : TwilioForm)
    (store : CallStore) (appts : List Appointment)
    (h1sid : form1.callSid = some sid) (h1s : speechOf form1 = none)
    (h2sid : form2.callSid = some sid) (h2s : speechOf form2 = some u)
    (hp : parseDateTime u now = none)
    (hphase : (getCallState store sid).phase = Phase.collectingDatetime) :
    (twilioVoicePost now freshId (some "datetime") form1 store appts).store = store
    ∧ (twilioVoicePost now freshId (some "datetime") form2 store appts).store = store
    ∧ (twilioVoicePost now freshId (some "datetime") form1 store appts).response
      = .gather datetimeMissingPrompt "datetime"
    ∧ (twilioVoicePost now freshId (some "datetime") form2 store appts).response
      = .gather datetimeUnparsedPrompt "datetime"
    ∧ (getCallState ((twilioVoicePost now freshId (some "datetime") form1 store appts).store)
        sid).phase = Phase.collectingDatetime
    ∧ (getCallState ((twilioVoicePost now freshId (some "datetime") form2 store appts).store)
        sid).phase = Phase.collectingDatetime
    ∧ datetimeMissingPrompt ≠ datetimeUnparsedPrompt := by
  rw [twilio_datetime_none_eq now freshId sid form1 store appts h1sid h1s,
    twilio_datetime_fail_eq now freshId sid u form2 store appts h2sid h2s hp]
  exact ⟨rfl, rfl, rfl, rfl, hphase, hphase, by decide⟩

/-- C4 witness: the empty utterance and `banana sandwich` against a call
stored at phase `collecting-datetime`. -/
theorem webhook_datetime_retry_in_place_witness :
    (twilioVoicePost refNow "f" (some "datetime") wFormEmpty storeAtDatetime []).store
      = storeAtDatetime
    ∧ (twilioVoicePost refNow "f" (some "datetime") (wForm "banana sandwich")
        storeAtDatetime []).store = storeAtDatetime
    ∧ (twilioVoicePost refNow "f" (some "datetime") wFormEmpty storeAtDatetime []).response
      = .gather datetimeMissingPrompt "datetime"
    ∧ (twilioVoicePost refNow "f" (some "datetime") (wForm "banana sandwich")
        storeAtDatetime []).response = .gather datetimeUnparsedPrompt "datetime"
    ∧ (getCallState ((twilioVoicePost refNow "f" (some "datetime") wFormEmpty
        storeAtDatetime []).store) "c1").phase = Phase.collectingDatetime
    ∧ (getCallState ((twilioVoicePost refNow "f" (some "datetime") (wForm "banana sandwich")
        storeAtDatetime []).store) "c1").phase = Phase.collectingDatetime
    ∧ datetimeMissingPrompt ≠ datetimeUnparsedPrompt :=
  webhook_datetime_retry_in_place refNow "f" "c1" "banana sandwich"
    wFormEmpty (wForm "banana sandwich") storeAtDatetime []
    rfl rfl rfl rfl (by decide) (by decide)

/-! ## C6 -/

theorem parseDateTime_none_of_no_anchor (text : String) (ref : Nat)
    (h : hasDateAnchor text = false) : parseDateTime text ref = none := by
  unfold hasDateAnchor at h
  have hn : findAnchor (wordsOf text) = none := by
    cases ha : findAnchor (wordsOf text) with
    | none => rfl
    | some a => rw [ha] at h; simp at h
  simp only [parseDateTime, hn]

/-- C6: on an utterance with no recognizable date token (such as
`banana sandwich`), the date parser returns the failure value `none` — never
the reference instant — and both adapters react by re-prompting without
advancing: the webhook re-gathers for the `datetime` step leaving the store
untouched, and the simulator keeps its step index and form, posting
nothing. -/
theorem parser_failure_reprompts
    (now : Nat) (text freshId sid : String) (form : TwilioForm)
    (store : CallStore) (appts : List Appointment) (st : SimState)
    (hanchor : hasDateAnchor text = false)
    (hsid : form.callSid = some sid) (hs : speechOf form = some text)
    (hca : st.callActive = true) (hsub : st.isSubmitting = false)
    (hpend : strTrim st.pendingResponse = text) (hne : text ≠ "")
    (hidx : st.currentStepIdx = 1) :
    parseDateTime text now = none
    ∧ parseDateTime text now ≠ some now
    ∧ (twilioVoicePost now freshId (some "datetime") form store appts).store = store
    ∧ (twilioVoicePost now freshId (some "datetime") form store appts).response
      = .gather datetimeUnparsedPrompt "datetime"
    ∧ (handleSubmitResponse now st).1.currentStepIdx = st.currentStepIdx
    ∧ (handleSubmitResponse now st).1.form = st.form
    ∧ (handleSubmitResponse now st).2 = [] := by
  have hp : parseDateTime text now = none := parseDateTime_none_of_no_anchor text now hanchor
  rw [twilio_datetime_fail_eq now freshId sid text form store appts hsid hs hp,
    sim_datetime_fail_eq now text st hca hsub hpend hne hidx hp]
  refine ⟨hp, by rw [hp]; exact fun h => Option.noConfusion h, rfl, rfl, by rw [hidx], rfl, rfl⟩

/-- A simulator state waiting at the datetime step with the slot not yet
parsed. -/
def simAtDatetime (pending : String) : SimState :=
  { callActive := true, callCompleted := false, isSubmitting := false,
    currentStepIdx := 1, pendingResponse := pending,
    form := { name := some "Jane Doe", requestedSlot := none, reason := none,
              phoneNumber := some "+1 555 010 1987" },
    transcript := [], error := none }

/-- C6 witness: `banana sandwich` at the datetime step of both adapters. -/
theorem parser_failure_reprompts_witness :
    parseDateTime "banana sandwich" refNow = none
    ∧ parseDateTime "banana sandwich" refNow ≠ some refNow
    ∧ (twilioVoicePost refNow "f" (some "datetime") (wForm "banana sandwich")
        storeAtDatetime []).store = storeAtDatetime
    ∧ (twilioVoicePost refNow "f" (some "datetime") (wForm "banana sandwich")
        storeAtDatetime []).response = .gather datetimeUnparsedPrompt "datetime"
    ∧ (handleSubmitResponse refNow (simAtDatetime "banana sandwich")).1.currentStepIdx
      = (simAtDatetime "banana sandwich").currentStepIdx
    ∧ (handleSubmitResponse refNow (simAtDatetime "banana sandwich")).1.form
      = (simAtDatetime "banana sandwich").form
    ∧ (handleSubmitResponse refNow (simAtDatetime "banana sandwich")).2 = [] :=
  parser_failure_reprompts refNow "banana sandwich" "f" "c1" (wForm "banana sandwich")
    storeAtDatetime [] (simAtDatetime "banana sandwich")
    (by decide) rfl rfl rfl rfl rfl (by decide) rfl

/-! ## C7 -/

/-- C7 counterexample: the body `null` parses as JSON, yet the route rejects
it with a 400 `Request body missing` instead of creating an appointment,
contradicting the claim that every JSON-parsing body succeeds. -/
theorem appointments_post_null_rejected_cex :
    appointmentsPost refNow (some JsonValue.jnull) []
      = (.badRequest "Request body missing", []) := by decide

/-- C7 (amended): every JSON body whose value is truthy (not `null`, `false`,
`0` or the empty string) succeeds and returns a created Appointment,
substituting the defined defaults for every missing field (contactNumber
`Unknown`, empty customerName/appointmentDateTime/reason, a synthesized
callSummary); falsy JSON values are rejected with the 400
`Request body missing`, and unparseable bodies with a 400 error. -/
theorem appointments_post_truthy_defaults
    (now : Nat) (v : JsonValue) (appts : List Appointment)
    (hv : v.truthy = true) :
    (∃ a, (appointmentsPost now (some v) appts).1 = .created a
        ∧ (appointmentsPost now (some v) appts).2 = a :: appts
        ∧ a.contactNumber = v.fieldContactNumber.getD "Unknown"
        ∧ a.customerName = v.fieldCustomerName.getD ""
        ∧ a.appointmentDateTime = v.fieldAppointmentDateTime.getD ""
        ∧ a.reason = v.fieldReason.getD ""
        ∧ a.callSummary = v.fieldCallSummary.getD
            ("Conversation booked for " ++ v.fieldCustomerName.getD "client" ++ "."))
    ∧ (∀ w : JsonValue, w.truthy = false →
        appointmentsPost now (some w) appts = (.badRequest "Request body missing", appts)) := by
  constructor
  · simp only [appointmentsPost, hv, Bool.not_true, Bool.false_eq_true, if_false,
      addAppointment]
    exact ⟨_, rfl, rfl, rfl, rfl, rfl, rfl, rfl⟩
  · intro w hw
    simp [appointmentsPost, hw]

/-- C7 witness: the empty JSON object, which is truthy with every field
missing. -/
theorem appointments_post_truthy_defaults_witness :
    (∃ a, (appointmentsPost refNow (some (JsonValue.jobj none none none none none)) []).1
          = .created a
        ∧ (appointmentsPost refNow (some (JsonValue.jobj none none none none none)) []).2
          = a :: ([] : List Appointment)
        ∧ a.contactNumber = (JsonValue.jobj none none none none none).fieldContactNumber.getD "Unknown"
        ∧ a.customerName = (JsonValue.jobj none none none none none).fieldCustomerName.getD ""
        ∧ a.appointmentDateTime
          = (JsonValue.jobj none none none none none).fieldAppointmentDateTime.getD ""
        ∧ a.reason = (JsonValue.jobj none none none none none).fieldReason.getD ""
        ∧ a.callSummary = (JsonValue.jobj none none none none none).fieldCallSummary.getD
            ("Conversation booked for "
              ++ (JsonValue.jobj none none none none none).fieldCustomerName.getD "client" ++ "."))
    ∧ (∀ w : JsonValue, w.truthy = false →
        appointmentsPost refNow (some w) [] = (.badRequest "Request body missing", [])) :=
  appointments_post_truthy_defaults refNow (JsonValue.jobj none none none none none) [] rfl

/-! ## C9 -/

/-- A simulator state waiting at the reason step whose slot was never
parsed. -/
def simAtReason (pending : String) : SimState :=
  { callActive := true, callCompleted := false, isSubmitting := false,
    currentStepIdx := 2, pendingResponse := pending,
    form := { name := some "Jane Doe", requestedSlot := none, reason := none,
              phoneNumber := some "+1 555 010 1987" },
    transcript := [], error := none }

/-- C9: when the reason utterance is submitted while no date/time was ever
parsed (`requestedSlot` unset), the simulator still submits the booking, with
`appointmentDateTime` equal to the wall-clock time of submission, and marks
the call completed. -/
theorem sim_reason_defaults_to_now
    (now : Nat) (text : String) (st : SimState)
    (hca : st.callActive = true) (hsub : st.isSubmitting = false)
    (hpend : strTrim st.pendingResponse = text) (hne : text ≠ "")
    (hidx : st.currentStepIdx = 2)
    (hslot : st.form.requestedSlot = none) :
    (handleSubmitResponse now st).2
      = [{ customerName := st.form.name.getD "Caller",
           appointmentDateTime := isoString now,
           reason := text,
           contactNumber := st.form.phoneNumber.getD "N/A",
           callSummary := "AI agent booked " ++ st.form.name.getD "caller"
             ++ " for " ++ text ++ "." }]
    ∧ (handleSubmitResponse now st).1.callCompleted = true := by
  rw [sim_reason_eq now text st hca hsub hpend hne hidx]
  exact ⟨by simp [hslot], rfl⟩

/-- C9 witness: the reason utterance `flu shot` with no requested slot. -/
theorem sim_reason_defaults_to_now_witness :
    (handleSubmitResponse refNow (simAtReason "flu shot")).2
      = [{ customerName := (simAtReason "flu shot").form.name.getD "Caller",
           appointmentDateTime := isoString refNow,
           reason := "flu shot",
           contactNumber := (simAtReason "flu shot").form.phoneNumber.getD "N/A",
           callSummary := "AI agent booked " ++ (simAtReason "flu shot").form.name.getD "caller"
             ++ " for " ++ "flu shot" ++ "." }]
    ∧ (handleSubmitResponse refNow (simAtReason "flu shot")).1.callCompleted = true :=
  sim_reason_defaults_to_now refNow "flu shot" (simAtReason "flu shot")
    rfl rfl rfl (by decide) rfl rfl

/-! ## C8 -/

/-- A simulator state at the greeting step of a fresh call. -/
def simAtGreeting (pending : String) : SimState :=
  { callActive := true, callCompleted := false, isSubmitting := false,
    currentStepIdx := 0, pendingResponse := pending,
    form := { name := none, requestedSlot := none, reason := none,
              phoneNumber := some "+1 555 010 1987" },
    transcript := [], error := none }

/-- C8 counterexample: after the name utterance `Jane Doe`, the webhook's
date/time prompt interpolates the name, but the simulator emits the fixed
prompt `Perfect, thank you. What day and time works best for your visit?`,
which does not contain the captured name — the two adapters do not behave
identically, and not both prompts interpolate the name. -/
theorem sim_prompt_no_interpolation_cex :
    (handleSubmitResponse refNow (simAtGreeting "Jane Doe")).1.transcript
      = [(false, "Jane Doe"),
         (true, "Perfect, thank you. What day and time works best for your visit?")]
    ∧ strContains "Perfect, thank you. What day and time works best for your visit?"
        "Jane Doe" = false
    ∧ (twilioVoicePost refNow "f" (some "name") (wForm "Jane Doe") storeAtGreeting []).response
      = .gather "Thanks Jane Doe. What day and time would you like to book the appointment for?"
          "datetime"
    ∧ strContains
        "Thanks Jane Doe. What day and time would you like to book the appointment for?"
        "Jane Doe" = true := by
  exact ⟨by decide, by decide, by decide, by decide⟩

/-- C8 (amended): both adapters advance through the same field-collection
order — after a non-empty name utterance both capture the name and move on to
asking for a date/time — but the prompt texts differ: the webhook's date/time
prompt interpolates the captured name, while the simulator's is the fixed
string `Perfect, thank you. What day and time works best for your visit?`,
which is independent of the name. -/
theorem adapters_name_step_alignment
    (now : Nat) (freshId sid nm : String) (form : TwilioForm)
    (store : CallStore) (appts : List Appointment) (st : SimState)
    (hsid : form.callSid = some sid) (hs : speechOf form = some nm)
    (hcid : (getCallState store sid).callId = sid)
    (hca : st.callActive = true) (hsub : st.isSubmitting = false)
    (hpend : strTrim st.pendingResponse = nm) (hne : nm ≠ "")
    (hidx : st.currentStepIdx = 0) :
    (twilioVoicePost now freshId (some "name") form store appts).response
      = .gather ("Thanks " ++ nm
          ++ ". What day and time would you like to book the appointment for?") "datetime"
    ∧ strContains ("Thanks " ++ nm
        ++ ". What day and time would you like to book the appointment for?") nm = true
    ∧ (getCallState ((twilioVoicePost now freshId (some "name") form store appts).store)
        sid).phase = Phase.collectingDatetime
    ∧ (getCallState ((twilioVoicePost now freshId (some "name") form store appts).store)
        sid).customerName = some nm
    ∧ (handleSubmitResponse now st).1.currentStepIdx = 1
    ∧ (handleSubmitResponse now st).1.form.name = some nm
    ∧ (handleSubmitResponse now st).1.transcript
      = st.transcript ++ [(false, nm)]
        ++ [(true, "Perfect, thank you. What day and time works best for your visit?")]
    ∧ (handleSubmitResponse now st).2 = [] := by
  rw [twilio_name_some_eq now freshId sid nm form store appts hsid hs,
    sim_greeting_eq now nm st hca hsub hpend hne hidx]
  refine ⟨rfl, ?_, ?_, ?_, rfl, rfl, rfl, rfl⟩
  · exact strContains_intro _ _ "Thanks ".data
      (". What day and time would you like to book the appointment for?".data)
      (by simp [String.data_append, List.append_assoc])
  · rw [getCallState_save]
    simp [apply_ite CallState.callId, ite_self, hcid]
  · rw [getCallState_save]
    simp [apply_ite CallState.callId, ite_self, hcid]

/-- C8 witness: the name `Jane Doe` driven through both adapters. -/
theorem adapters_name_step_alignment_witness :
    (twilioVoicePost refNow "f" (some "name") (wForm "Jane Doe") storeAtGreeting []).response
      = .gather ("Thanks " ++ "Jane Doe"
          ++ ". What day and time would you like to book the appointment for?") "datetime"
    ∧ strContains ("Thanks " ++ "Jane Doe"
        ++ ". What day and time would you like to book the appointment for?") "Jane Doe" = true
    ∧ (getCallState ((twilioVoicePost refNow "f" (some "name") (wForm "Jane Doe")
        storeAtGreeting []).store) "c1").phase = Phase.collectingDatetime
    ∧ (getCallState ((twilioVoicePost refNow "f" (some "name") (wForm "Jane Doe")
        storeAtGreeting []).store) "c1").customerName = some "Jane Doe"
    ∧ (handleSubmitResponse refNow (simAtGreeting "Jane Doe")).1.currentStepIdx = 1
    ∧ (handleSubmitResponse refNow (simAtGreeting "Jane Doe")).1.form.name = some "Jane Doe"
    ∧ (handleSubmitResponse refNow (simAtGreeting "Jane Doe")).1.transcript
      = (simAtGreeting "Jane Doe").transcript ++ [(false, "Jane Doe")]
        ++ [(true, "Perfect, thank you. What day and time works best for your visit?")]
    ∧ (handleSubmitResponse refNow (simAtGreeting "Jane Doe")).2 = [] :=
  adapters_name_step_alignment refNow "f" "c1" "Jane Doe" (wForm "Jane Doe")
    storeAtGreeting [] (simAtGreeting "Jane Doe")
    rfl rfl rfl rfl rfl rfl (by decide) rfl

/-! ## C2 -/

/-- Whether the webhook itself would have issued `step` for the call's
current stored state: `init` for a fresh or greeting-phase call, `name`
while greeting, `datetime` once the name is captured, `reason` once the
date is captured (the steps the emitted `<Gather>` action URLs carry). -/
def inSync (sid step : String) : Option CallState → Bool
  | none => decide (step = "init")
  | some st =>
    if step = "init" ∨ step = "name" then
      decide (st.phase = Phase.greeting) && decide (st.callId = sid)
    else if step = "datetime" then
      decide (st.phase = Phase.collectingDatetime) && decide (st.callId = sid)
        && !falsyOpt st.customerName
    else if step = "reason" then
      decide (st.phase = Phase.collectingReason) && decide (st.callId = sid)
        && !falsyOpt st.customerName && !falsyOpt st.appointmentDateTime
    else false

/-- The stored-phase transitions one webhook turn may take when driven by the
webhook's own step sequence: stay in place, materialize a fresh call at
`greeting`, advance `greeting → collecting-datetime → collecting-reason`, or
finalize (`collecting-reason` to cleared). `collecting-name` and a persisted
`completed` never occur on this protocol path. -/
def forwardEdge : Option Phase → Option Phase → Bool
  | none, some Phase.greeting => true
  | some Phase.greeting, some Phase.collectingDatetime => true
  | some Phase.collectingDatetime, some Phase.collectingReason => true
  | some Phase.collectingReason, none => true
  | a, b => decide (a = b)

/-- C2 counterexample: the handler trusts the `step` query parameter, so the
stored phase can move backward: a first turn with step `reason` (utterance
`checkup`) leaves the call stored at phase `completed`; a second turn with
step `name` (utterance `Bob`) overwrites it with `collecting-datetime` —
`completed` to `collecting-datetime` is a backward move in the claimed
order. -/
theorem webhook_phase_backward_cex :
    ((twilioVoicePost refNow "f" (some "reason") (wForm "checkup") emptyCallStore []).store
        "c1").map CallState.phase = some Phase.completed
    ∧ (((twilioVoicePost refNow "f" (some "name") (wForm "Bob")
          ((twilioVoicePost refNow "f" (some "reason") (wForm "checkup") emptyCallStore []).store)
          []).store) "c1").map CallState.phase = some Phase.collectingDatetime := by
  exact ⟨by decide, by decide⟩

theorem forwardEdge_refl (a : Option Phase) : forwardEdge a a = true := by
  rcases a with _ | p
  · rfl
  · cases p <;> rfl

/-- C2 (amended, part of the file-wide phase analysis): an incoming turn with
an empty or missing utterance never changes the call's phase (for any step
parameter and any stored state); and when the turn's step parameter is the
one the webhook itself issued for the call's current state (`inSync`), the
stored phase only moves along the forward edges greeting →
collecting-datetime → collecting-reason → cleared-on-completion (or stays in
place) — `collecting-name` is conflated with `greeting` and never stored,
and with arbitrary step parameters the phase can move backward (see the
counterexample). -/
theorem webhook_phase_discipline
    (now : Nat) (freshId sid step : String) (form : TwilioForm)
    (store : CallStore) (appts : List Appointment)
    (hsid : form.callSid = some sid) :
    (speechOf form = none →
      (getCallState ((twilioVoicePost now freshId (some step) form store appts).store) sid).phase
        = (getCallState store sid).phase)
    ∧ (inSync sid step (store sid) = true →
      forwardEdge ((store sid).map CallState.phase)
        (((twilioVoicePost now freshId (some step) form store appts).store sid).map
          CallState.phase) = true) := by
  constructor
  · intro hsp
    by_cases h1 : step = "init"
    · subst h1
      rw [twilio_init_eq now freshId sid form store appts hsid, getCallState_save]
      simp [apply_ite CallState.phase, apply_ite CallState.callId, ite_self]
    · by_cases h2 : step = "name"
      · subst h2; rw [twilio_name_none_eq now freshId sid form store appts hsid hsp]
      · by_cases h3 : step = "datetime"
        · subst h3; rw [twilio_datetime_none_eq now freshId sid form store appts hsid hsp]
        · by_cases h4 : step = "reason"
          · subst h4; rw [twilio_reason_none_eq now freshId sid form store appts hsid hsp]
          · rw [twilio_other_eq now freshId step form store appts h1 h2 h3 h4]
  · intro hin
    by_cases h1 : step = "init"
    · subst h1
      rw [twilio_init_eq now freshId sid form store appts hsid]
      cases he : store sid with
      | none =>
        have hg : getCallState store sid =
            { callId := sid, phase := Phase.greeting, customerName := none,
              appointmentDateTime := none, reason := none, contactNumber := none } := by
          simp [getCallState, he]
        have hcid : (if form.fromNumber.isSome then
              { getCallState store sid with contactNumber := form.fromNumber }
            else getCallState store sid).callId = sid := by
          simp [apply_ite CallState.callId, ite_self, hg]
        have hph : (if form.fromNumber.isSome then
              { getCallState store sid with contactNumber := form.fromNumber }
            else getCallState store sid).phase = Phase.greeting := by
          simp [apply_ite CallState.phase, ite_self, hg]
        simp [saveCallState, hcid, hph, forwardEdge]
      | some e =>
        have hunf : inSync sid "init" (some e)
            = (decide (e.phase = Phase.greeting) && decide (e.callId = sid)) := by
          simp [inSync]
        rw [he, hunf] at hin
        obtain ⟨ha, hb⟩ := Bool.and_eq_true_iff.mp hin
        have hep := of_decide_eq_true ha
        have hec := of_decide_eq_true hb
        have hg : getCallState store sid = e := by simp [getCallState, he]
        have hcid : (if form.fromNumber.isSome then
              { getCallState store sid with contactNumber := form.fromNumber }
            else getCallState store sid).callId = sid := by
          simp [apply_ite CallState.callId, ite_self, hg, hec]
        have hph : (if form.fromNumber.isSome then
              { getCallState store sid with contactNumber := form.fromNumber }
            else getCallState store sid).phase = Phase.greeting := by
          simp [apply_ite CallState.phase, ite_self, hg, hep]
        simp [saveCallState, hcid, hph, hep, forwardEdge]
    · by_cases h2 : step = "name"
      · subst h2
        cases he : store sid with
        | none =>
          rw [he] at hin
          rw [show inSync sid "name" none = false from rfl] at hin
          cases hin
        | some e =>
          have hunf : inSync sid "name" (some e)
              = (decide (e.phase = Phase.greeting) && decide (e.callId = sid)) := by
            simp [inSync]
          rw [he, hunf] at hin
          obtain ⟨ha, hb⟩ := Bool.and_eq_true_iff.mp hin
          have hep := of_decide_eq_true ha
          have hec := of_decide_eq_true hb
          have hg : getCallState store sid = e := by simp [getCallState, he]
          cases hsp : speechOf form with
          | none =>
            rw [twilio_name_none_eq now freshId sid form store appts hsid hsp]
            show forwardEdge ((some e).map CallState.phase)
              ((store sid).map CallState.phase) = true
            rw [he]
            exact forwardEdge_refl _
          | some r =>
            rw [twilio_name_some_eq now freshId sid r form store appts hsid hsp]
            have hcid : (if form.fromNumber.isSome then
                  { getCallState store sid with contactNumber := form.fromNumber }
                else getCallState store sid).callId = sid := by
              simp [apply_ite CallState.callId, ite_self, hg, hec]
            simp [saveCallState, hcid, hep, forwardEdge]
      · by_cases h3 : step = "datetime"
        · subst h3
          cases he : store sid with
          | none =>
            rw [he] at hin
            rw [show inSync sid "datetime" none = false from rfl] at hin
            cases hin
          | some e =>
            have hunf : inSync sid "datetime" (some e)
                = (decide (e.phase = Phase.collectingDatetime) && decide (e.callId = sid)
                    && !falsyOpt e.customerName) := by
              simp [inSync]
            rw [he, hunf] at hin
            obtain ⟨hab, hc⟩ := Bool.and_eq_true_iff.mp hin
            obtain ⟨ha, hb⟩ := Bool.and_eq_true_iff.mp hab
            have hep := of_decide_eq_true ha
            have hec := of_decide_eq_true hb
            have hg : getCallState store sid = e := by simp [getCallState, he]
            cases hsp : speechOf form with
            | none =>
              rw [twilio_datetime_none_eq now freshId sid form store appts hsid hsp]
              show forwardEdge ((some e).map CallState.phase)
                ((store sid).map CallState.phase) = true
              rw [he]
              exact forwardEdge_refl _
            | some r =>
              cases hp : parseDateTime r now with
              | none =>
                rw [twilio_datetime_fail_eq now freshId sid r form store appts hsid hsp hp]
                show forwardEdge ((some e).map CallState.phase)
                  ((store sid).map CallState.phase) = true
                rw [he]
                exact forwardEdge_refl _
              | some t =>
                rw [twilio_datetime_ok_eq now t freshId sid r form store appts hsid hsp hp]
                have hcid : (if form.fromNumber.isSome then
                      { getCallState store sid with contactNumber := form.fromNumber }
                    else getCallState store sid).callId = sid := by
                  simp [apply_ite CallState.callId, ite_self, hg, hec]
                simp [saveCallState, hcid, hep, forwardEdge]
        · by_cases h4 : step = "reason"
          · subst h4
            cases he : store sid with
            | none =>
              rw [he] at hin
              rw [show inSync sid "reason" none = false from rfl] at hin
              cases hin
            | some e =>
              have hunf : inSync sid "reason" (some e)
                  = (decide (e.phase = Phase.collectingReason) && decide (e.callId = sid)
                      && !falsyOpt e.customerName && !falsyOpt e.appointmentDateTime) := by
                simp [inSync]
              rw [he, hunf] at hin
              obtain ⟨habc, hd⟩ := Bool.and_eq_true_iff.mp hin
              obtain ⟨hab, hc⟩ := Bool.and_eq_true_iff.mp habc
              obtain ⟨ha, hb⟩ := Bool.and_eq_true_iff.mp hab
              have hep := of_decide_eq_true ha
              have hec := of_decide_eq_true hb
              have hname : falsyOpt e.customerName = false := by
                cases hx : falsyOpt e.customerName
                · rfl
                · rw [hx] at hc; exact absurd hc (by decide)
              have hdt : falsyOpt e.appointmentDateTime = false := by
                cases hx : falsyOpt e.appointmentDateTime
                · rfl
                · rw [hx] at hd; exact absurd hd (by decide)
              have hg : getCallState store sid = e := by simp [getCallState, he]
              cases hsp : speechOf form with
              | none =>
                rw [twilio_reason_none_eq now freshId sid form store appts hsid hsp]
                show forwardEdge ((some e).map CallState.phase)
                  ((store sid).map CallState.phase) = true
                rw [he]
                exact forwardEdge_refl _
              | some r =>
                rw [twilio_reason_some_eq now freshId sid r form store appts hsid hsp]
                have hr0 : r ≠ "" := speechOf_ne_empty hsp
                have fr : falsyOpt (some r) = false := by
                  simp only [falsyOpt]; exact decide_eq_false hr0
                simp only [apply_ite CallState.customerName,
                  apply_ite CallState.appointmentDateTime, ite_self, hg, hname, hdt, fr,
                  Bool.or_self, Bool.or_false, Bool.false_or, if_false]
                simp [clearCallState, hep, forwardEdge]
          · rw [twilio_other_eq now freshId step form store appts h1 h2 h3 h4]
            show forwardEdge ((store sid).map CallState.phase)
              ((store sid).map CallState.phase) = true
            exact forwardEdge_refl _

/-- C2 witness: a name turn against a greeting-phase call (an in-sync step)
and an empty-utterance turn, both at concrete inputs. -/
theorem webhook_phase_discipline_witness :
    (getCallState ((twilioVoicePost refNow "f" (some "name") wFormEmpty
        storeAtGreeting []).store) "c1").phase = (getCallState storeAtGreeting "c1").phase
    ∧ forwardEdge ((storeAtGreeting "c1").map CallState.phase)
        (((twilioVoicePost refNow "f" (some "name") (wForm "Jane Doe")
          storeAtGreeting []).store "c1").map CallState.phase) = true :=
  ⟨(webhook_phase_discipline refNow "f" "c1" "name" wFormEmpty storeAtGreeting [] rfl).1 rfl,
   (webhook_phase_discipline refNow "f" "c1" "name" (wForm "Jane Doe") storeAtGreeting []
      rfl).2 (by decide)⟩

/-! ## C10 -/

theorem getCallState_contact_none (store : CallStore) (sid : String)
    (hstore : ∀ k st, store k = some st → st.contactNumber = none) :
    (getCallState store sid).contactNumber = none := by
  cases hk : store sid with
  | none => simp [getCallState, hk]
  | some e =>
    have := hstore sid e hk
    simp [getCallState, hk, this]

theorem save_preserves_contact_none (store : CallStore) (st : CallState)
    (hstore : ∀ k s, store k = some s → s.contactNumber = none)
    (hst : st.contactNumber = none) :
    ∀ k s, saveCallState store st k = some s → s.contactNumber = none := by
  intro k s h
  unfold saveCallState at h
  by_cases hk : k = st.callId
  · rw [if_pos hk] at h; injection h with h; exact h ▸ hst
  · rw [if_neg hk] at h; exact hstore k s h

theorem clear_preserves_contact_none (store : CallStore) (cid : String)
    (hstore : ∀ k s, store k = some s → s.contactNumber = none) :
    ∀ k s, clearCallState store cid k = some s → s.contactNumber = none := by
  intro k s h
  unfold clearCallState at h
  by_cases hk : k = cid
  · rw [if_pos hk] at h; cases h
  · rw [if_neg hk] at h; exact hstore k s h

theorem twilio_noFrom_step_sid (now : Nat) (freshId step sid : String)
    (form : TwilioForm) (store : CallStore) (appts : List Appointment)
    (hsid : form.callSid = some sid) (hfrom : form.fromNumber = none)
    (hstore : ∀ k st, store k = some st → st.contactNumber = none) :
    (∀ k st, (twilioVoicePost now freshId (some step) form store appts).store k = some st →
        st.contactNumber = none)
    ∧ ((twilioVoicePost now freshId (some step) form store appts).appointments = appts
      ∨ ∃ a, (twilioVoicePost now freshId (some step) form store appts).appointments
            = a :: appts
          ∧ a.contactNumber = "Unknown") := by
  have hstate : (if form.fromNumber.isSome then
        { getCallState store sid with contactNumber := form.fromNumber }
      else getCallState store sid) = getCallState store sid := by
    simp [hfrom]
  have hcontact : (getCallState store sid).contactNumber = none :=
    getCallState_contact_none store sid hstore
  by_cases h1 : step = "init"
  · subst h1
    rw [twilio_init_eq now freshId sid form store appts hsid, hstate]
    exact ⟨save_preserves_contact_none store _ hstore hcontact, Or.inl rfl⟩
  · by_cases h2 : step = "name"
    · subst h2
      cases hsp : speechOf form with
      | none =>
        rw [twilio_name_none_eq now freshId sid form store appts hsid hsp]
        exact ⟨hstore, Or.inl rfl⟩
      | some r =>
        rw [twilio_name_some_eq now freshId sid r form store appts hsid hsp, hstate]
        exact ⟨save_preserves_contact_none store _ hstore hcontact, Or.inl rfl⟩
    · by_cases h3 : step = "datetime"
      · subst h3
        cases hsp : speechOf form with
        | none =>
          rw [twilio_datetime_none_eq now freshId sid form store appts hsid hsp]
          exact ⟨hstore, Or.inl rfl⟩
        | some r =>
          cases hp : parseDateTime r now with
          | none =>
            rw [twilio_datetime_fail_eq now freshId sid r form store appts hsid hsp hp]
            exact ⟨hstore, Or.inl rfl⟩
          | some t =>
            rw [twilio_datetime_ok_eq now t freshId sid r form store appts hsid hsp hp,
              hstate]
            exact ⟨save_preserves_contact_none store _ hstore hcontact, Or.inl rfl⟩
      · by_cases h4 : step = "reason"
        · subst h4
          cases hsp : speechOf form with
          | none =>
            rw [twilio_reason_none_eq now freshId sid form store appts hsid hsp]
            exact ⟨hstore, Or.inl rfl⟩
          | some r =>
            rw [twilio_reason_some_eq now freshId sid r form store appts hsid hsp, hstate]
            cases hgb : (falsyOpt (getCallState store sid).customerName
                || falsyOpt (getCallState store sid).appointmentDateTime
                || falsyOpt (some r)) with
            | true =>
              simp only [hgb, if_true]
              exact ⟨save_preserves_contact_none store _ hstore hcontact, Or.inl trivial⟩
            | false =>
              simp only [hgb, if_false, addAppointment]
              refine ⟨clear_preserves_contact_none _ sid
                (save_preserves_contact_none store _ hstore hcontact),
                Or.inr ⟨_, rfl, ?_⟩⟩
              simp [hcontact]
        · rw [twilio_other_eq now freshId step form store appts h1 h2 h3 h4]
          exact ⟨hstore, Or.inl rfl⟩

theorem twilio_noFrom_step (now : Nat) (freshId : String) (stepParam : Option String)
    (form : TwilioForm) (store : CallStore) (appts : List Appointment)
    (hfrom : form.fromNumber = none)
    (hstore : ∀ k st, store k = some st → st.contactNumber = none) :
    (∀ k st, (twilioVoicePost now freshId stepParam form store appts).store k = some st →
        st.contactNumber = none)
    ∧ ((twilioVoicePost now freshId stepParam form store appts).appointments = appts
      ∨ ∃ a, (twilioVoicePost now freshId stepParam form store appts).appointments
            = a :: appts
          ∧ a.contactNumber = "Unknown") := by
  have hred : twilioVoicePost now freshId stepParam form store appts
      = twilioVoicePost now freshId (some (stepParam.getD "init")) form store appts := by
    cases stepParam <;> rfl
  rw [hred]
  cases hc : form.callSid with
  | some sid => exact twilio_noFrom_step_sid now freshId _ sid form store appts hc hfrom hstore
  | none =>
    have hfill : twilioVoicePost now freshId (some (stepParam.getD "init")) form store appts
        = twilioVoicePost now freshId (some (stepParam.getD "init"))
            { form with callSid := some freshId } store appts := by
      simp [twilioVoicePost, hc, speechOf]
    rw [hfill]
    exact twilio_noFrom_step_sid now freshId _ freshId
      { form with callSid := some freshId } store appts rfl hfrom hstore

/-- C10: for a run of webhook turns none of which carries a caller number
(`From` absent on every turn), every Appointment the run creates has
contactNumber equal to the literal string `Unknown`. -/
theorem webhook_no_from_unknown_contact
    (now : Nat) (freshId : String) (turns : List (Option String × TwilioForm))
    (store : CallStore) (appts : List Appointment)
    (hstore : ∀ k st, store k = some st → st.contactNumber = none)
    (hturns : ∀ t ∈ turns, (Prod.snd t).fromNumber = none) :
    ∀ a ∈ (runTurns now freshId turns store appts).2,
      a ∈ appts ∨ a.contactNumber = "Unknown" := by
  induction turns generalizing store appts with
  | nil => intro a ha; exact Or.inl ha
  | cons t rest ih =>
    intro a ha
    obtain ⟨hinv, happ⟩ := twilio_noFrom_step now freshId t.1 t.2 store appts
      (hturns t (List.mem_cons_self t rest)) hstore
    simp only [runTurns] at ha
    have ih' := ih (twilioVoicePost now freshId t.1 t.2 store appts).store
      (twilioVoicePost now freshId t.1 t.2 store appts).appointments hinv
      (fun t' ht' => hturns t' (List.mem_cons_of_mem t ht'))
    rcases ih' a ha with hmem | hunk
    · rcases happ with heq | ⟨a0, heq, hc0⟩
      · rw [heq] at hmem; exact Or.inl hmem
      · rw [heq] at hmem
        rcases List.mem_cons.mp hmem with h0 | hmem'
        · exact Or.inr (h0 ▸ hc0)
        · exact Or.inl hmem'
    · exact Or.inr hunk

def bookingTurns : List (Option String × TwilioForm) :=
  [(some "init", wFormEmpty), (some "name", wForm "Jane Doe"),
   (some "datetime", wForm "tomorrow"), (some "reason", wForm "annual checkup")]

def bookedAppt : Appointment :=
  { id := "appt-0", customerName := "Jane Doe", appointmentDateTime := isoString 29493180,
    contactNumber := "Unknown", reason := "annual checkup",
    callSummary := "AI assistant booked for Jane Doe to discuss annual checkup.",
    createdAt := isoString 29491200 }

/-- C10 witness: a full no-From booking run; the appointment it creates is in
the final store with contactNumber `Unknown`. -/
theorem webhook_no_from_unknown_contact_witness :
    bookedAppt ∈ ([] : List Appointment) ∨ bookedAppt.contactNumber = "Unknown" :=
  webhook_no_from_unknown_contact refNow "f" bookingTurns emptyCallStore []
    (fun _ _ h => Option.noConfusion h) (by decide)
    bookedAppt (by decide)
